import Mathlib

/-!
# A verification development for `pymu.py`

Shallow embedding of the cycle-stepped 6502-style emulator core in `pymu.py`:
the `Memory` byte array with its write-protected upper half, the `Flags`
status register, the generator-based `Cpu` instruction engine, and the
`Clock` that advances registered executors one cycle-step per tick.

Python dynamic values that matter here (the flag fields can hold either a
`bool` or an `int`) are modelled by `PyVal`; Python `==` between such values
compares their numeric content (`True == 1`, `False == 0`).

The CPU's generators (`Cpu.run`, `Cpu._lda_imm`, `Cpu._sta_abs`, `Cpu._sei`,
`Cpu._cld`, `Cpu._read_pc`, `Cpu._read_pc_addr`) are embedded as an explicit
step function `Cpu.step` on a `Machine` state whose `Phase` constructors are
in one-to-one correspondence with the suspension points (`yield`
expressions) of the source: one `next()` call on the generator is one
application of `Cpu.step`.
-/

/-- A Python value that is either a `bool` or a (non-negative) `int`;
the `Flags` fields range over these (`setzn` stores an `int` into
`negative`, all other writes store `bool`s). -/
inductive PyVal
  | bool (b : Bool)
  | num (n : Nat)
deriving DecidableEq

/-- Numeric content of a `PyVal`: Python treats `False` as `0` and `True`
as `1` in comparisons with integers. -/
def PyVal.toNat : PyVal → Nat
  | .bool b => cond b 1 0
  | .num n => n

/-- Python `==` on these values: numeric comparison (so `0 == False` is
`True` and `128 == True` is `False`). -/
def PyVal.eqv (a b : PyVal) : Bool := a.toNat == b.toNat

/-- Whether a `PyVal` is an actual `bool` (what `isinstance(v, bool)`
would report). -/
def PyVal.isBool : PyVal → Bool
  | .bool _ => true
  | .num _ => false

/-- The `Flags` class: four status fields, all initialized to `False`. -/
structure Flags where
  zero : PyVal
  negative : PyVal
  irq_disable : PyVal
  decimal : PyVal
deriving DecidableEq

/-- Fresh `Flags()` instance: all fields are the class defaults `False`. -/
def Flags.init : Flags :=
  { zero := .bool false, negative := .bool false,
    irq_disable := .bool false, decimal := .bool false }

/-- `Flags.setzn(value)`: `self.zero = value == 0` (a `bool`) and
`self.negative = value & 0x80` (an `int`, exactly as the source writes it —
it is not converted to `bool`). -/
def Flags.setzn (f : Flags) (value : Nat) : Flags :=
  { f with zero := .bool (value == 0), negative := .num (value &&& 0x80) }

/-- The contents of a 65536-entry `bytearray`, as a map from index to byte
value (all stored values are bytes, `0..255`). -/
def Ram : Type := Nat → Nat

/-- In-place item assignment `ram[i] = v` at a valid non-negative index. -/
def Ram.set (ram : Ram) (i v : Nat) : Ram :=
  fun j => if j = i then v else ram j

/-- `bytearray(65536)`: zero-initialized. -/
def zeroRam : Ram := fun _ => 0

/-- `Memory.read_byte(offset)`: `self._ram[offset & 0xffff]`.  Python's
`& 0xffff` on an arbitrary (possibly negative) `int` equals the
non-negative remainder mod `65536`, so the read is total. -/
def Memory.read_byte (ram : Ram) (offset : Int) : Nat :=
  ram ((offset % 65536).toNat)

/-- `Memory.read_word(offset)`: little-endian,
`read_byte(offset) + 256 * read_byte(offset + 1)`. -/
def Memory.read_word (ram : Ram) (offset : Int) : Nat :=
  Memory.read_byte ram offset + 256 * Memory.read_byte ram (offset + 1)

/-- `Memory.write_byte(offset, value)`: `if offset < 0x8000: self._ram[offset] = value`.
The guard performs no 16-bit masking, so a negative `offset` passes it and
indexes the `bytearray` from the end (Python negative indexing); an index
below `-65536` raises `IndexError` and a non-byte value raises
`ValueError`, both modelled as `none`.  An `offset ≥ 0x8000` makes the
whole call a silent no-op. -/
def Memory.write_byte (ram : Ram) (offset : Int) (value : Nat) : Option Ram :=
  if offset < 0x8000 then
    if value < 256 then
      if 0 ≤ offset then some (Ram.set ram offset.toNat value)
      else if -65536 ≤ offset then some (Ram.set ram (offset + 65536).toNat value)
      else none
    else none
  else some ram

/-- Loop body of `Memory.load_os`: `for i in range(len(data)): self._ram[0xc000 + i] = data[i]`,
running with the absolute index `idx = 0xc000 + i`.  An index past the end
of the `bytearray` raises `IndexError` (second component `true`), leaving
every byte already assigned in place. -/
def Memory.load_os_go (ram : Ram) (data : List Nat) (idx : Nat) : Ram × Bool :=
  match data with
  | [] => (ram, false)
  | d :: rest =>
    if idx < 65536 then Memory.load_os_go (Ram.set ram idx d) rest (idx + 1)
    else (ram, true)

/-- `Memory.load_os(data)`: copy `data` verbatim into the array starting at
`0xc000`, by direct item assignment (no write-protection check).  The
boolean reports whether the copy raised `IndexError` part-way through. -/
def Memory.load_os (ram : Ram) (data : List Nat) : Ram × Bool :=
  Memory.load_os_go ram data 0xC000

/-- The exceptions the engine can raise. `badOpcode` is the
`RuntimeError(f"Bad opcode {opcode:2x}")` of `Cpu._unknown`; `memFault` is
an unreachable bytearray error kept for totality of the model. -/
inductive PyExn
  | badOpcode (opcode : Nat)
  | memFault
deriving DecidableEq

/-- The suspension points of the source's generators, one constructor per
`yield` (plus `start` for a not-yet-started generator and `raised` for a
generator that has raised and is dead):
* `start`     — `cpu.run()` created, before the first `next()`;
* `fetched`   — the `yield` in `Cpu.run` (after the opcode read and `pc += 1`);
* `ldaOperand`— the `yield` in `Cpu._read_pc` delegated from `Cpu._lda_imm`
                (operand byte already read, `pc` not yet incremented);
* `ldaSettle` — the final `yield` of `Cpu._lda_imm` (A and flags updated);
* `staLow`    — the `yield` in the first `Cpu._read_pc` of `Cpu._read_pc_addr`;
* `staHigh`   — the `yield` in the second `Cpu._read_pc` (low byte latched,
                high byte read, its `pc += 1` still pending);
* `staSettle` — the final `yield` of `Cpu._sta_abs` (the store has happened);
* `seiSettle` — the `yield` of `Cpu._sei` (flag already set);
* `cldSettle` — the `yield` of `Cpu._cld` (flag already cleared). -/
inductive Phase
  | start
  | fetched (opcode : Nat)
  | ldaOperand (result : Nat)
  | ldaSettle
  | staLow (result : Nat)
  | staHigh (low : Nat) (result : Nat)
  | staSettle
  | seiSettle
  | cldSettle
  | raised (e : PyExn)
deriving DecidableEq

/-- Phases from which the next `Cpu.step` executes the top of `Cpu.run`'s
loop (read opcode, advance PC, suspend): either the generator has not
started yet or an instruction's final `yield` has just elapsed. -/
def Phase.isBoundary : Phase → Bool
  | .start | .ldaSettle | .staSettle | .seiSettle | .cldSettle => true
  | _ => false

/-- The `Cpu`'s register file and flags (`_a`, `_x`, `_y`, `_s`, `_pc`,
`_flags`).  `pc` is a plain Python `int`: the source never masks it. -/
structure CpuState where
  a : Nat
  x : Nat
  y : Nat
  s : Nat
  pc : Nat
  flags : Flags
deriving DecidableEq

/-- `Cpu.__init__`: registers zero, fresh flags, and
`self._pc = memory.read_word(0xfffc)`. -/
def Cpu.init (ram : Ram) : CpuState :=
  { a := 0, x := 0, y := 0, s := 0,
    pc := Memory.read_word ram 0xFFFC, flags := Flags.init }

/-- One executor: the CPU registers, the memory it reads and writes, and
the suspension point its generator is parked at. -/
structure Machine where
  cpu : CpuState
  ram : Ram
  phase : Phase

/-- Top of `Cpu.run`'s loop: `opcode = read_byte(pc); pc += 1; yield`. -/
def Cpu.fetchNext (m : Machine) : Machine :=
  { m with cpu := { m.cpu with pc := m.cpu.pc + 1 },
           phase := .fetched (Memory.read_byte m.ram m.cpu.pc) }

/-- One `next()` call on the `cpu.run()` generator: run from the current
suspension point to the next one.  Each arm is the source code between two
consecutive `yield`s:
* from a boundary phase: the top of `Cpu.run`'s loop;
* from `fetched op`: `yield from self._handlers[op](op)` — the dispatch
  table built in `Cpu.__init__` maps `0xa9`/`0x8d`/`0x78`/`0xd8` to their
  handlers and everything else to `Cpu._unknown`, which raises immediately;
  the three generator handlers run up to their first `yield`;
* from `ldaOperand res`: `Cpu._read_pc` resumes (`pc += 1`, returns `res`),
  then `self._a = self._setzn(imm)` and `Cpu._lda_imm`'s final `yield`;
* from `staLow low`: first `Cpu._read_pc` resumes (`pc += 1`), the second
  `Cpu._read_pc` reads the high byte and suspends;
* from `staHigh low high`: second `Cpu._read_pc` resumes (`pc += 1`),
  `_read_pc_addr` returns `low + 256 * high`, `write_byte(addr, a)` runs,
  and `Cpu._sta_abs`'s final `yield` suspends;
* from `raised e`: the generator is dead; no further observable cycle-step
  ever changes the state again. -/
def Cpu.step (m : Machine) : Machine :=
  match m.phase with
  | .start => Cpu.fetchNext m
  | .fetched op =>
    if op = 0xA9 then
      { m with phase := .ldaOperand (Memory.read_byte m.ram m.cpu.pc) }
    else if op = 0x8D then
      { m with phase := .staLow (Memory.read_byte m.ram m.cpu.pc) }
    else if op = 0x78 then
      { m with cpu := { m.cpu with flags := { m.cpu.flags with irq_disable := .bool true } },
               phase := .seiSettle }
    else if op = 0xD8 then
      { m with cpu := { m.cpu with flags := { m.cpu.flags with decimal := .bool false } },
               phase := .cldSettle }
    else
      { m with phase := .raised (.badOpcode op) }
  | .ldaOperand res =>
    { m with
      cpu := { m.cpu with pc := m.cpu.pc + 1, a := res &&& 0xFF, flags := m.cpu.flags.setzn res },
      phase := .ldaSettle }
  | .ldaSettle => Cpu.fetchNext m
  | .staLow low =>
    { m with cpu := { m.cpu with pc := m.cpu.pc + 1 },
             phase := .staHigh low (Memory.read_byte m.ram (m.cpu.pc + 1)) }
  | .staHigh low high =>
    match Memory.write_byte m.ram (low + 256 * high) m.cpu.a with
    | some r =>
      { m with cpu := { m.cpu with pc := m.cpu.pc + 1 },
               ram := r, phase := .staSettle }
    | none =>
      { m with cpu := { m.cpu with pc := m.cpu.pc + 1 },
               phase := .raised .memFault }
  | .staSettle => Cpu.fetchNext m
  | .seiSettle => Cpu.fetchNext m
  | .cldSettle => Cpu.fetchNext m
  | .raised _ => m

/-- `Clock.tick()`: `for device in self._devices: next(device)` — step every
registered executor once, in registration order.  An executor is modelled
extensionally as the state transformer its `next()` performs on the shared
world `σ`. -/
def Clock.tick {σ : Type} (devices : List (σ → σ)) (w : σ) : σ :=
  devices.foldl (fun s d => d s) w

/-- `n` consecutive `Clock.tick()` calls. -/
def Clock.run {σ : Type} (devices : List (σ → σ)) (n : Nat) (w : σ) : σ :=
  (Clock.tick devices)^[n] w

/-- Run a flat schedule of executor steps left to right. -/
def Clock.runSchedule {σ : Type} (sched : List (σ → σ)) (w : σ) : σ :=
  sched.foldl (fun s d => d s) w

/-- An observer executor that records its index in a shared log each time
the clock steps it. -/
def Clock.stepLog (i : Nat) : List Nat → List Nat :=
  fun log => log ++ [i]

/-- `k` observer executors registered in index order `0, 1, ..., k-1`. -/
def Clock.logDevices (k : Nat) : List (List Nat → List Nat) :=
  (List.range k).map Clock.stepLog

/-- The scenario image of the spec: bytes `A9 42` (LDA #0x42) then
`8D 00 00` (STA 0x0000) at `0xC000`, reset vector `0xFFFC/0xFFFD`
pointing at `0xC000`, every other byte zero. -/
def demoRam : Ram := fun a =>
  if a = 0xC000 then 0xA9
  else if a = 0xC001 then 0x42
  else if a = 0xC002 then 0x8D
  else if a = 0xC003 then 0x00
  else if a = 0xC004 then 0x00
  else if a = 0xFFFC then 0x00
  else if a = 0xFFFD then 0xC0
  else 0

/-- The freshly constructed engine for the scenario image: `Cpu(memory)`
with its `cpu.run()` generator not yet started. -/
def demoMachine : Machine :=
  { cpu := Cpu.init demoRam, ram := demoRam, phase := .start }

/-- An engine over all-zero memory: the reset vector reads as `0x0000` and
the first opcode fetched is `0x00`, which no handler implements. -/
def zeroMachine : Machine :=
  { cpu := Cpu.init zeroRam, ram := zeroRam, phase := .start }

/-- Load-time and construction-time failures of `main`'s set-up sequence:
`badRom` is the `RuntimeError(f"Bad ROM size: {len(data)} for {path}")` of
`load_rom`; `memIndex` is an `IndexError` escaping `Memory.load_os`. -/
inductive InitErr
  | badRom (size : Nat) (path : String)
  | memIndex
deriving DecidableEq

/-- `load_rom(pathname)` after the file's bytes have been read (file I/O is
external glue): `if len(data) != 0x4000: raise RuntimeError(...)`, else the
bytes are returned unchanged. -/
def load_rom (data : List Nat) (path : String) : Except InitErr (List Nat) :=
  if data.length ≠ 0x4000 then Except.error (InitErr.badRom data.length path)
  else Except.ok data

/-- `main()`'s set-up, up to the point where the engine exists:
`memory = Memory(); memory.load_os(load_rom('os.rom')); cpu = Cpu(memory);
clock = Clock([cpu.run()])`.  Any exception propagates before a `Cpu` (and
hence any engine state) is constructed. -/
def mainInit (romBytes : List Nat) (path : String) : Except InitErr Machine :=
  match load_rom romBytes path with
  | Except.error e => Except.error e
  | Except.ok data =>
    match Memory.load_os zeroRam data with
    | (_, true) => Except.error InitErr.memIndex
    | (ram2, false) =>
      Except.ok { cpu := Cpu.init ram2, ram := ram2, phase := Phase.start }

/-- The single class-level `bytearray` behind every `Memory` instance: the
source declares `_ram: bytearray = bytearray(65536)` at class scope and no
method ever assigns `self._ram`, so attribute lookup on any instance finds
this one shared array. -/
structure MemoryClass where
  ram : Ram

/-- `m.read_byte(offset)` called on the instance with identity `inst`:
the instance's `__dict__` has no `_ram`, so the lookup falls through to the
class attribute — the instance identity is irrelevant. -/
def Memory.read_byte_inst (w : MemoryClass) (inst : Nat) (offset : Int) : Nat :=
  Memory.read_byte w.ram offset

/-- `m.write_byte(offset, value)` called on the instance with identity
`inst`: mutates the shared class-level array in place. -/
def Memory.write_byte_inst (w : MemoryClass) (inst : Nat) (offset : Int)
    (value : Nat) : Option MemoryClass :=
  Option.map MemoryClass.mk (Memory.write_byte w.ram offset value)

/-- The class attribute as initialized at class-definition time. -/
def memoryClass0 : MemoryClass := ⟨zeroRam⟩


/-- C6: `write_byte` stores exactly in the writable half of the address
space: for `a` in `[0x8000, 0xFFFF]` the write leaves the array (hence
every subsequent `read_byte`) unchanged, and for `a` in `[0x0000, 0x7FFF]`
the write stores `v` so that `read_byte(a)` returns `v`. -/
theorem C6_write_protection (ram : Ram) (a v : Nat) (hv : v < 256) :
    (0x8000 ≤ a → a ≤ 0xFFFF → Memory.write_byte ram (a : Int) v = some ram)
    ∧ (a < 0x8000 →
        Memory.write_byte ram (a : Int) v = some (Ram.set ram a v)
        ∧ Memory.read_byte (Ram.set ram a v) (a : Int) = v) := by
  constructor
  · intro h1 _
    unfold Memory.write_byte
    rw [if_neg (by omega)]
  · intro h1
    constructor
    · unfold Memory.write_byte
      rw [if_pos (by omega), if_pos hv, if_pos (by omega)]
      norm_num
    · unfold Memory.read_byte Ram.set
      have h2 : (((a : Int)) % 65536).toNat = a := by omega
      rw [h2, if_pos rfl]

/-- C6 witness: a write at `0x9000` is dropped and a write at `0x0005`
lands and reads back. -/
theorem C6_write_protection_demo :
    Memory.write_byte zeroRam ((0x9000 : Nat) : Int) 7 = some zeroRam
    ∧ (Memory.write_byte zeroRam ((5 : Nat) : Int) 7 = some (Ram.set zeroRam 5 7)
       ∧ Memory.read_byte (Ram.set zeroRam 5 7) ((5 : Nat) : Int) = 7) :=
  ⟨(C6_write_protection zeroRam 0x9000 7 (by decide)).1 (by decide) (by decide),
   (C6_write_protection zeroRam 5 7 (by decide)).2 (by decide)⟩

/-- C10: `write_byte` performs no 16-bit masking of its address: any
`offset ≥ 0x10000` fails the `offset < 0x8000` guard and is a no-op (even
when `offset & 0xFFFF < 0x8000`), while `offset = -1` passes the guard and
Python's negative indexing lands the write on the last cell, `0xFFFF`,
inside the protected region — after it, `read_byte(0xFFFF)` returns `v`. -/
theorem C10_write_no_mask (ram : Ram) (b : Int) (v : Nat) (hv : v < 256)
    (hb : 0x10000 ≤ b) :
    Memory.write_byte ram b v = some ram
    ∧ Memory.write_byte ram (-1) v = some (Ram.set ram 0xFFFF v)
    ∧ Memory.read_byte (Ram.set ram 0xFFFF v) (0xFFFF : Int) = v := by
  refine ⟨?_, ?_, ?_⟩
  · unfold Memory.write_byte
    rw [if_neg (by omega)]
  · unfold Memory.write_byte
    rw [if_pos (by norm_num), if_pos hv, if_neg (by norm_num), if_pos (by norm_num)]
    rfl
  · rfl

/-- C10 witness: address `0x14000` (whose low 16 bits are `0x4000`, a
writable address) is still a no-op, and address `-1` writes `0xFFFF`. -/
theorem C10_write_no_mask_demo :
    Memory.write_byte zeroRam 0x14000 9 = some zeroRam
    ∧ Memory.write_byte zeroRam (-1) 9 = some (Ram.set zeroRam 0xFFFF 9)
    ∧ Memory.read_byte (Ram.set zeroRam 0xFFFF 9) (0xFFFF : Int) = 9 :=
  C10_write_no_mask zeroRam 0x14000 9 (by decide) (by decide)

/-- C3: the claim that distinct `Memory` instances own disjoint arrays is
false in the source — `_ram` is one class-level `bytearray` shared by every
instance, so a `write_byte` through instance `0` changes what `read_byte`
returns on the distinct instance `1`: address `0x0000` reads `0` before the
write and `0x42` after it. -/
theorem C3_shared_class_ram :
    (0 : Nat) ≠ 1
    ∧ Memory.read_byte_inst memoryClass0 1 0 = 0
    ∧ Memory.write_byte_inst memoryClass0 0 0 0x42 = some ⟨Ram.set zeroRam 0 0x42⟩
    ∧ Memory.read_byte_inst ⟨Ram.set zeroRam 0 0x42⟩ 1 0 = 0x42 := by
  exact ⟨by decide, rfl, rfl, rfl⟩

/-- C4: `Flags.setzn(0x80)` stores the `int` `0x80` (not a `bool`) into
`negative`, so Python's `negative == True` is `False` (it compares `128`
with `1`) and `negative` is not a boolean; the `zero` half of the claim
does hold (`zero` is the `bool` `value == 0`). -/
theorem C4_negative_is_int :
    (Flags.setzn Flags.init 0x80).negative = PyVal.num 0x80
    ∧ PyVal.isBool (Flags.setzn Flags.init 0x80).negative = false
    ∧ PyVal.eqv (Flags.setzn Flags.init 0x80).negative (PyVal.bool true) = false
    ∧ (Flags.setzn Flags.init 0x80).zero = PyVal.bool false := by
  decide

theorem Clock.runSchedule_append {σ : Type} (l1 l2 : List (σ → σ)) (w : σ) :
    Clock.runSchedule (l1 ++ l2) w = Clock.runSchedule l2 (Clock.runSchedule l1 w) := by
  simp [Clock.runSchedule, List.foldl_append]

theorem Clock.run_eq_schedule {σ : Type} (devices : List (σ → σ)) (n : Nat) (w : σ) :
    Clock.run devices n w = Clock.runSchedule ((List.replicate n devices).flatten) w := by
  induction n generalizing w with
  | zero => rfl
  | succ n ih =>
    rw [Clock.run, Function.iterate_succ_apply, ← Clock.run, ih,
        List.replicate_succ, List.flatten_cons, Clock.runSchedule_append]
    rfl

theorem Clock.runSchedule_stepLog (l : List Nat) (log : List Nat) :
    Clock.runSchedule (l.map Clock.stepLog) log = log ++ l := by
  induction l generalizing log with
  | nil => simp [Clock.runSchedule]
  | cons a l ih =>
    show Clock.runSchedule (l.map Clock.stepLog) (Clock.stepLog a log) = log ++ a :: l
    rw [ih]
    simp [Clock.stepLog]

theorem count_flatten_replicate_range (k n i : Nat) (hik : i < k) :
    ((List.replicate n (List.range k)).flatten.count i) = n := by
  induction n with
  | zero => simp
  | succ n ih =>
    rw [List.replicate_succ, List.flatten_cons, List.count_append, ih]
    rw [List.count_eq_one_of_mem (List.nodup_range k) (List.mem_range.mpr hik)]
    omega

theorem Clock.runSchedule_logDevices (k n : Nat) :
    ∀ log, Clock.runSchedule ((List.replicate n (Clock.logDevices k)).flatten) log
      = log ++ (List.replicate n (List.range k)).flatten := by
  induction n with
  | zero => intro log; simp [Clock.runSchedule]
  | succ n ih =>
    intro log
    rw [List.replicate_succ, List.flatten_cons, Clock.runSchedule_append]
    show Clock.runSchedule _ (Clock.runSchedule ((List.range k).map Clock.stepLog) log) = _
    rw [Clock.runSchedule_stepLog, ih, List.replicate_succ, List.flatten_cons]
    simp

/-- C8: a `Clock` built from `k` executors steps each of them exactly once
per `tick()`, in registration order: `n` ticks are the flat schedule
`replicate n devices` run left to right (first conjunct, for arbitrary
executors over an arbitrary shared world); instrumenting `k` observer
executors that log their own index shows the realized order is
`0, …, k-1` repeated `n` times (second conjunct), in which each executor
index `i < k` occurs exactly `n` times (third conjunct). -/
theorem C8_clock_lockstep {σ : Type} (devices : List (σ → σ)) (n : Nat) (w : σ)
    (k i : Nat) (hik : i < k) :
    Clock.run devices n w = Clock.runSchedule ((List.replicate n devices).flatten) w
    ∧ Clock.run (Clock.logDevices k) n [] = (List.replicate n (List.range k)).flatten
    ∧ ((List.replicate n (List.range k)).flatten).count i = n := by
  refine ⟨Clock.run_eq_schedule devices n w, ?_,
    count_flatten_replicate_range k n i hik⟩
  rw [Clock.run_eq_schedule, Clock.runSchedule_logDevices]
  simp

/-- C8 witness: one executor (`Nat.succ` on a counter world), two ticks,
`k = 1`, executor index `i = 0`. -/
theorem C8_clock_lockstep_demo :
    Clock.run [Nat.succ] 2 0 = Clock.runSchedule ((List.replicate 2 [Nat.succ]).flatten) 0
    ∧ Clock.run (Clock.logDevices 1) 2 [] = (List.replicate 2 (List.range 1)).flatten
    ∧ ((List.replicate 2 (List.range 1)).flatten).count 0 = 2 :=
  C8_clock_lockstep [Nat.succ] 2 0 1 0 (by decide)

/-- The path string handed to `load_rom` by `main` ('os.rom'). -/
def osRomPath : String := "os.rom"

/-- C9: `load_rom` accepts exactly one length: any byte sequence whose
length is not `16384` makes it raise `RuntimeError` carrying the actual
size and the path, and in `main`'s set-up sequence that failure happens
before a `Cpu` (any engine state) is constructed — `mainInit` yields the
error, not a `Machine`.  A sequence of exactly `16384` bytes is returned
unchanged for loading. -/
theorem C9_rom_size_check (data : List Nat) (path : String) :
    (data.length ≠ 16384 →
        load_rom data path = Except.error (InitErr.badRom data.length path)
        ∧ mainInit data path = Except.error (InitErr.badRom data.length path))
    ∧ (data.length = 16384 → load_rom data path = Except.ok data) := by
  constructor
  · intro h
    have hrom : load_rom data path = Except.error (InitErr.badRom data.length path) := by
      unfold load_rom
      rw [if_pos h]
    refine ⟨hrom, ?_⟩
    unfold mainInit
    rw [hrom]
  · intro h
    unfold load_rom
    rw [if_neg (fun hc => hc h)]

/-- C9 witness: a 1-byte image fails with its size and path before any
engine state exists; a 16384-byte image is returned unchanged. -/
theorem C9_rom_size_check_demo :
    (load_rom [7] osRomPath = Except.error (InitErr.badRom 1 osRomPath)
     ∧ mainInit [7] osRomPath = Except.error (InitErr.badRom 1 osRomPath))
    ∧ load_rom (List.replicate 16384 0) osRomPath = Except.ok (List.replicate 16384 0) :=
  ⟨(C9_rom_size_check [7] osRomPath).1 (by decide),
   (C9_rom_size_check (List.replicate 16384 0) osRomPath).2 (List.length_replicate ..)⟩

theorem Memory.load_os_go_snd (data : List Nat) :
    ∀ (ram : Ram) (idx : Nat), idx ≤ 65536 →
      ((Memory.load_os_go ram data idx).2 = true ↔ 65536 < idx + data.length) := by
  induction data with
  | nil =>
    intro ram idx h
    simp [Memory.load_os_go]
    omega
  | cons d rest ih =>
    intro ram idx h
    unfold Memory.load_os_go
    by_cases hidx : idx < 65536
    · rw [if_pos hidx, ih _ _ (by omega)]
      simp only [List.length_cons]
      omega
    · rw [if_neg hidx]
      constructor
      · intro
        simp only [List.length_cons]
        omega
      · intro
        rfl

theorem Memory.load_os_go_fst (data : List Nat) :
    ∀ (ram : Ram) (idx j : Nat),
      (Memory.load_os_go ram data idx).1 j =
        if idx ≤ j ∧ j < idx + data.length ∧ j < 65536
        then data.getD (j - idx) 0 else ram j := by
  induction data with
  | nil =>
    intro ram idx j
    rw [if_neg (by simp only [List.length_nil]; omega)]
    rfl
  | cons d rest ih =>
    intro ram idx j
    unfold Memory.load_os_go
    by_cases hidx : idx < 65536
    · rw [if_pos hidx, ih]
      by_cases hj : j = idx
      · subst hj
        rw [if_neg (by omega), if_pos (by simp only [List.length_cons]; omega)]
        simp [Ram.set]
      · by_cases hj2 : idx + 1 ≤ j ∧ j < idx + 1 + rest.length ∧ j < 65536
        · rw [if_pos hj2, if_pos (by simp only [List.length_cons]; omega)]
          have hji : j - idx = (j - (idx + 1)) + 1 := by omega
          rw [hji]
          rfl
        · rw [if_neg hj2, if_neg (by simp only [List.length_cons]; omega)]
          simp [Ram.set, hj]
    · rw [if_neg hidx, if_neg (by simp only [List.length_cons]; omega)]

/-- C7 (amended): `load_os` copies the byte sequence verbatim into memory
starting at `0xC000` (by direct item assignment, ignoring write
protection), and raises exactly when the image would overflow the 16-bit
space (`0xC000 + len > 0x10000`) — but the failure happens mid-loop, after
every in-range byte has already been stored, so on overflow the `Memory`
is left holding a partial copy of the image (conjunct 2 with
`0x10000 < 0xC000 + len` exhibits the copied prefix); cells outside the
copied range keep their prior values (conjunct 3). -/
theorem C7_load_image (ram : Ram) (data : List Nat) :
    ((Memory.load_os ram data).2 = true ↔ 0x10000 < 0xC000 + data.length)
    ∧ (∀ j, 0xC000 ≤ j → j < 0xC000 + data.length → j < 0x10000 →
        (Memory.load_os ram data).1 j = data.getD (j - 0xC000) 0)
    ∧ (∀ j, j < 0xC000 ∨ 0xC000 + data.length ≤ j ∨ 0x10000 ≤ j →
        (Memory.load_os ram data).1 j = ram j) := by
  refine ⟨Memory.load_os_go_snd data ram 0xC000 (by omega), ?_, ?_⟩
  · intro j h1 h2 h3
    rw [Memory.load_os, Memory.load_os_go_fst, if_pos ⟨h1, h2, h3⟩]
  · intro j h
    rcases h with h | h | h <;>
      rw [Memory.load_os, Memory.load_os_go_fst, if_neg (by omega)]

/-- C7 counterexample: a 16385-byte image (`0xC000 + 16385 = 0x10001`)
makes `load_os` raise, but the `Memory` is left with a partial copy: the
cell at `0xC000`, which held `0` before the call, holds the image's first
byte `0x11` at the moment the failure propagates — contradicting
"without leaving the Memory holding a partial copy of the image". -/
theorem C7_overflow_leaves_partial_copy :
    (Memory.load_os zeroRam (List.replicate 16385 0x11)).2 = true
    ∧ (Memory.load_os zeroRam (List.replicate 16385 0x11)).1 0xC000 = 0x11
    ∧ zeroRam 0xC000 = 0 := by
  refine ⟨?_, ?_, rfl⟩
  · rw [Memory.load_os, Memory.load_os_go_snd _ _ _ (by omega)]
    rw [List.length_replicate]
    omega
  · rw [Memory.load_os, Memory.load_os_go_fst,
        if_pos (by simp only [List.length_replicate]; omega)]
    rfl

/-- C7 witness: a 2-byte image loads without raising; its bytes land
verbatim at `0xC000` and `0xC001` and an unrelated cell is untouched. -/
theorem C7_load_image_demo :
    (Memory.load_os zeroRam [3, 4]).2 = false
    ∧ (Memory.load_os zeroRam [3, 4]).1 0xC001 = 4
    ∧ (Memory.load_os zeroRam [3, 4]).1 5 = zeroRam 5 := by
  have h := C7_load_image zeroRam [3, 4]
  refine ⟨?_, ?_, h.2.2 5 (by omega)⟩
  · have h2 := h.1
    revert h2
    cases (Memory.load_os zeroRam [3, 4]).2 with
    | false => intro _; rfl
    | true =>
      intro h2
      have := h2.mp rfl
      simp only [List.length_cons, List.length_nil] at this
      omega
  · exact h.2.1 0xC001 (by omega) (by simp only [List.length_cons, List.length_nil]; omega) (by omega)

/-- C1 counterexample: in the scenario image (`LDA #0x42` then
`STA 0x0000` at `0xC000`), after exactly 6 `tick()` calls the store has
not yet happened — the engine is still suspended inside `STA`'s
operand fetch, `read_byte(0x0000)` is `0`, not `0x42` — so the claimed
conjunction is false after 6 ticks (LDA takes 3 cycle-steps, not 2). -/
theorem C1_six_ticks_counterexample :
    ¬ ((Clock.run [Cpu.step] 6 demoMachine).cpu.a = 0x42
       ∧ PyVal.eqv (Clock.run [Cpu.step] 6 demoMachine).cpu.flags.zero (PyVal.bool false) = true
       ∧ PyVal.eqv (Clock.run [Cpu.step] 6 demoMachine).cpu.flags.negative (PyVal.bool false) = true
       ∧ Memory.read_byte (Clock.run [Cpu.step] 6 demoMachine).ram 0 = 0x42) := by
  decide

/-- C1 (amended): after exactly 7 `tick()` calls (LDA takes 3 cycle-steps
— fetch, operand fetch, trailing settle `yield` — and STA takes 4, so
3 + 4 = 7), `A == 0x42`, `zero == False`, `negative == False` (Python
`==`: `negative` holds the int `0`), and `read_byte(0x0000) == 0x42`. -/
theorem C1_seven_ticks :
    (Clock.run [Cpu.step] 7 demoMachine).cpu.a = 0x42
    ∧ PyVal.eqv (Clock.run [Cpu.step] 7 demoMachine).cpu.flags.zero (PyVal.bool false) = true
    ∧ PyVal.eqv (Clock.run [Cpu.step] 7 demoMachine).cpu.flags.negative (PyVal.bool false) = true
    ∧ Memory.read_byte (Clock.run [Cpu.step] 7 demoMachine).ram 0 = 0x42 := by
  decide

/-- C2 counterexample: in the scenario image the PC points at opcode
`0xA9`; after 2 cycle-steps from the start of the opcode fetch the
instruction has not completed (`A` is still `0` — the assignment runs only
while the 3rd `next()` executes) and the 3rd suspension point is
`Cpu._lda_imm`'s own trailing `yield`, still inside the instruction — so
"exactly 2 suspension points" is false: 3 elapse. -/
theorem C2_two_cycles_counterexample :
    demoMachine.cpu.pc = 0xC000
    ∧ Memory.read_byte demoMachine.ram demoMachine.cpu.pc = 0xA9
    ∧ (Clock.run [Cpu.step] 2 demoMachine).cpu.a = 0
    ∧ (Clock.run [Cpu.step] 3 demoMachine).phase = Phase.ldaSettle := by
  decide

/-- C2 (amended): executing one LDA immediate instruction consumes exactly
3 cycle-steps including the opcode-fetch cycle: for every engine state at
an instruction boundary whose PC points at byte `0xA9`, the 1st step is
the fetch suspension, the 2nd the operand-fetch suspension, the 3rd the
handler's trailing settle suspension (by which the `A := operand` effect
is visible), and only the 4th step is the next instruction's fetch. -/
theorem C2_lda_three_cycles (m : Machine) (hb : m.phase.isBoundary = true)
    (hop : Memory.read_byte m.ram m.cpu.pc = 0xA9) :
    (Cpu.step m).phase = Phase.fetched 0xA9
    ∧ (Cpu.step^[2] m).phase = Phase.ldaOperand (Memory.read_byte m.ram (m.cpu.pc + 1))
    ∧ (Cpu.step^[3] m).phase = Phase.ldaSettle
    ∧ (Cpu.step^[3] m).cpu.a = Memory.read_byte m.ram (m.cpu.pc + 1) &&& 0xFF
    ∧ (Cpu.step^[4] m).phase = Phase.fetched (Memory.read_byte m.ram (m.cpu.pc + 1 + 1)) := by
  rcases m with ⟨cpu, ram, phase⟩
  cases phase <;>
    first
    | ((refine ⟨?_, ?_, ?_, ?_, ?_⟩ <;>
          simp [Function.iterate_succ_apply, Cpu.step, Cpu.fetchNext, hop]) <;> done)
    | simp [Phase.isBoundary] at hb

/-- C2 witness: the amended cycle count realized on the scenario image
(`0xA9 0x42` at `PC = 0xC000`). -/
theorem C2_lda_three_cycles_demo :
    (Cpu.step demoMachine).phase = Phase.fetched 0xA9
    ∧ (Cpu.step^[2] demoMachine).phase = Phase.ldaOperand 0x42
    ∧ (Cpu.step^[3] demoMachine).phase = Phase.ldaSettle
    ∧ (Cpu.step^[3] demoMachine).cpu.a = 0x42
    ∧ (Cpu.step^[4] demoMachine).phase = Phase.fetched 0x8D := by
  have h := C2_lda_three_cycles demoMachine (by decide) (by decide)
  exact h

theorem Cpu.step_raised_frozen (m : Machine) (e : PyExn)
    (h : m.phase = Phase.raised e) : ∀ n, Cpu.step^[n] m = m := by
  intro n
  apply Function.iterate_fixed
  rcases m with ⟨cpu, ram, phase⟩
  cases phase with
  | raised e2 => rfl
  | start => exact absurd h (by simp)
  | fetched op => exact absurd h (by simp)
  | ldaOperand res => exact absurd h (by simp)
  | ldaSettle => exact absurd h (by simp)
  | staLow low => exact absurd h (by simp)
  | staHigh low high => exact absurd h (by simp)
  | staSettle => exact absurd h (by simp)
  | seiSettle => exact absurd h (by simp)
  | cldSettle => exact absurd h (by simp)

/-- C5: for every opcode byte `op` outside `{0xA9, 0x8D, 0x78, 0xD8}`,
from any instruction-boundary state whose PC points at `op`: the fetch
cycle-step advances PC past the opcode byte and changes nothing else
(conjunct 1); the very next cycle-step raises the unimplemented-opcode
failure carrying `op`, with registers, flags and memory exactly as fetched
(conjunct 2); and no further cycle-steps are observable from that executor
— every later step leaves the dead state unchanged (conjunct 3). -/
theorem C5_unknown_opcode (m : Machine) (op : Nat)
    (hb : m.phase.isBoundary = true)
    (hop : Memory.read_byte m.ram m.cpu.pc = op) (hbyte : op < 256)
    (hA9 : op ≠ 0xA9) (h8D : op ≠ 0x8D) (h78 : op ≠ 0x78) (hD8 : op ≠ 0xD8) :
    Cpu.step m
      = { m with cpu := { m.cpu with pc := m.cpu.pc + 1 },
                 phase := Phase.fetched op }
    ∧ Cpu.step (Cpu.step m)
      = { m with cpu := { m.cpu with pc := m.cpu.pc + 1 },
                 phase := Phase.raised (PyExn.badOpcode op) }
    ∧ ∀ n, Cpu.step^[n] (Cpu.step (Cpu.step m)) = Cpu.step (Cpu.step m) := by
  have h1 : Cpu.step m
      = { m with cpu := { m.cpu with pc := m.cpu.pc + 1 },
                 phase := Phase.fetched op } := by
    rcases m with ⟨cpu, ram, phase⟩
    cases phase <;>
      first
      | ((simp [Cpu.step, Cpu.fetchNext, hop]) <;> done)
      | simp [Phase.isBoundary] at hb
  have h2 : Cpu.step (Cpu.step m)
      = { m with cpu := { m.cpu with pc := m.cpu.pc + 1 },
                 phase := Phase.raised (PyExn.badOpcode op) } := by
    rw [h1]
    simp [Cpu.step, hA9, h8D, h78, hD8]
  refine ⟨h1, h2, fun n => ?_⟩
  rw [h2]
  exact Cpu.step_raised_frozen _ (PyExn.badOpcode op) rfl n

/-- C5 witness: over all-zero memory the reset vector reads `0x0000` and
the first opcode is `0x00`, which is unimplemented: the fetch advances PC
to 1, the second step raises `badOpcode 0` with everything else as
fetched, and (here at `n = 9`) later steps change nothing. -/
theorem C5_unknown_opcode_demo :
    Cpu.step zeroMachine
      = { zeroMachine with
          cpu := { zeroMachine.cpu with pc := zeroMachine.cpu.pc + 1 },
          phase := Phase.fetched 0 }
    ∧ Cpu.step (Cpu.step zeroMachine)
      = { zeroMachine with
          cpu := { zeroMachine.cpu with pc := zeroMachine.cpu.pc + 1 },
          phase := Phase.raised (PyExn.badOpcode 0) }
    ∧ Cpu.step^[9] (Cpu.step (Cpu.step zeroMachine)) = Cpu.step (Cpu.step zeroMachine) := by
  have h := C5_unknown_opcode zeroMachine 0 (by decide) rfl (by decide)
    (by decide) (by decide) (by decide) (by decide)
  exact ⟨h.1, h.2.1, h.2.2 9⟩
